import Mathlib

/-!
Verification of the presenterm presentation compiler (`builder.rs`) and
presenter runtime (`presenter.rs`) against their natural-language
specification. The Rust source is shallowly embedded: the builder is a pure
state-transformer over `BuilderState`, fallible steps return
`Except BuildError`, and external collaborators (markdown parser, syntax
highlighter, resource loader, unicode width, theme loading) are parameters
bundled in `Externals`.
-/

set_option maxRecDepth 4000

deriving instance DecidableEq for Except

namespace Presenterm

/-! ## String utilities

Rust's `str` operations are modelled over `List Char`, structurally
recursive so that concrete runs reduce in the kernel. -/

/-- UTF-8 byte size of a character; models Rust `char::len_utf8`, so that
`rustStrLen` models Rust `String::len` (a byte count). -/
def charUtf8Size (c : Char) : Nat :=
  if c.toNat < 0x80 then 1
  else if c.toNat < 0x800 then 2
  else if c.toNat < 0x10000 then 3
  else 4

/-- Rust `String::len`: the UTF-8 byte length. -/
def rustStrLen (s : String) : Nat := (s.data.map charUtf8Size).sum

/-- Display width of a string, parameterised by the per-character width
`w` (the external unicode-width crate). -/
def strWidth (w : Char → Nat) (s : String) : Nat := (s.data.map w).sum

/-- Modelled from the spec: the external unicode display width
(`unicode_width` crate), restricted to the characters exercised here:
CJK unified ideographs are double-width, everything else single-width. -/
def uniWidth (c : Char) : Nat :=
  if 0x4E00 ≤ c.toNat ∧ c.toNat ≤ 0x9FFF then 2 else 1

/-- Split a character list at a separator; the accumulator holds the
current chunk reversed. -/
def splitCharAux (sep : Char) : List Char → List Char → List (List Char)
  | [], acc => [acc.reverse]
  | ch :: rest, acc =>
      if ch = sep then acc.reverse :: splitCharAux sep rest []
      else splitCharAux sep rest (ch :: acc)

/-- Rust `str::lines`: split on newline, with no empty trailing line when
the string ends in a newline. -/
def rustLines (s : String) : List String :=
  if s.data.isEmpty then []
  else
    let parts := (splitCharAux '\n' s.data []).map (fun l => String.mk l)
    if s.data.getLast? = some '\n' then parts.dropLast else parts

/-- Trim ASCII/unicode whitespace from both ends of a character list
(models Rust `str::trim`). -/
def trimChars (l : List Char) : List Char :=
  ((l.dropWhile Char.isWhitespace).reverse.dropWhile Char.isWhitespace).reverse

/-- Rust `str::trim_end`: drop trailing whitespace. -/
def rustTrimEnd (s : String) : String :=
  String.mk (s.data.reverse.dropWhile Char.isWhitespace).reverse

/-- Parse a decimal natural number (models the integer parsing inside the
external yaml deserializer). -/
def digitsToNat? (l : List Char) : Option Nat :=
  if l.isEmpty then none
  else
    l.foldl
      (fun acc c =>
        match acc with
        | none => none
        | some n => if c.isDigit then some (n * 10 + (c.toNat - 48)) else none)
      (some 0)

/-- Parse a yaml-style list of naturals such as `[1, 2]`. -/
def parseNatListChars (l : List Char) : Option (List Nat) :=
  match l with
  | '[' :: rest =>
      if rest.getLast? = some ']' then
        let inner := rest.dropLast
        if (trimChars inner).isEmpty then some []
        else (splitCharAux ',' inner []).mapM (fun part => digitsToNat? (trimChars part))
      else none
  | _ => none

/-! ## Data model -/

/-- Foreground/background color pair. The concrete color representation is
irrelevant to the claims; an optional code stands in for it. -/
structure Colors where
  foreground : Option Nat := none
  background : Option Nat := none
deriving DecidableEq

/-- Inline text style (`style.rs` is not under `src/`; only the fields the
builder touches are modelled, which no claim depends on). -/
structure TextStyle where
  bold : Bool := false
  code : Bool := false
  colors : Colors := {}
deriving DecidableEq

/-- A styled chunk of text. -/
structure StyledText where
  text : String
  style : TextStyle := {}
deriving DecidableEq

/-- A line of inline text, a list of styled chunks. -/
structure Text where
  chunks : List StyledText
deriving DecidableEq

/-- Merge an applied style into a chunk's own style (models
`Text::apply_style`; `style.rs` is not under `src/` and no claim depends
on the exact merge). -/
def TextStyle.mergeInto (applied base : TextStyle) : TextStyle :=
  { bold := base.bold || applied.bold
    code := base.code
    colors :=
      ⟨(base.colors.foreground).orElse (fun _ => applied.colors.foreground),
       (base.colors.background).orElse (fun _ => applied.colors.background)⟩ }

/-- Apply a style over every chunk of a text line. -/
def Text.applyStyle (t : Text) (s : TextStyle) : Text :=
  ⟨t.chunks.map (fun c => { c with style := TextStyle.mergeInto s c.style })⟩

/-- Horizontal margin specification. -/
inductive Margin
  | fixed (n : Nat)
  | percent (n : Nat)
deriving DecidableEq

/-- Text alignment, as configured per element type by the theme. -/
inductive Alignment
  | left (margin : Margin)
  | center (minimumSize : Nat) (minimumMargin : Margin)
  | right (margin : Margin)
deriving DecidableEq

/-- The element types the theme maps to alignments. -/
inductive ElementType
  | slideTitle
  | heading1 | heading2 | heading3 | heading4 | heading5 | heading6
  | paragraph
  | list
  | code
  | presentationTitle | presentationSubTitle | presentationAuthor
  | table
  | blockQuote
deriving DecidableEq

/-- Margin properties applied by the slide prelude. -/
structure MarginProperties where
  horizontalMargin : Margin
  bottomSlideMargin : Nat
deriving DecidableEq

/-- A preformatted (code / block-quote) output line. -/
structure PreformattedLine where
  text : String
  unformattedLength : Nat
  blockLength : Nat
  alignment : Alignment
deriving DecidableEq

/-- The theme's footer style. -/
inductive FooterStyle
  | template (left center right : Option String) (colors : Colors)
  | progressBar (character : Option Char) (colors : Colors)
  | empty
deriving DecidableEq

/-- Compile-time payload of a dynamic footer instruction: the style and the
slide index it belongs to. The shared `FooterContext` is supplied at draw
time. -/
structure FooterGenerator where
  style : FooterStyle
  currentSlide : Nat
deriving DecidableEq

/-- The unit of compiled output (`RenderOperation`). -/
inductive RenderOperation
  | setColors (colors : Colors)
  | clearScreen
  | applyMargin (properties : MarginProperties)
  | popMargin
  | jumpToVerticalCenter
  | jumpToBottom
  | initColumnLayout (columns : List Nat)
  | enterColumn (column : Nat)
  | exitLayout
  | renderSeparator
  | renderLineBreak
  | renderTextLine (line : List StyledText) (alignment : Alignment)
  | renderPreformattedLine (line : PreformattedLine)
  | renderImage (image : Nat)
  | renderDynamic (generator : FooterGenerator)
deriving DecidableEq

/-- An ordered sequence of draw instructions. -/
structure Slide where
  renderOperations : List RenderOperation
deriving DecidableEq

instance : Inhabited Slide := ⟨⟨[]⟩⟩

/-- Modelled from the spec: `presentation.rs` is not under `src/`. A
Presentation is "an ordered, 0-indexed sequence of Slides plus a mutable
cursor `current_slide_index`, clamped to `[0, len-1]`". -/
structure Presentation where
  slides : List Slide
  currentSlideIndex : Nat
deriving DecidableEq

instance : Inhabited Presentation := ⟨⟨[], 0⟩⟩

/-- Modelled from the spec: `Presentation::new` starts at the first slide. -/
def Presentation.new (slides : List Slide) : Presentation := ⟨slides, 0⟩

/-- Modelled from the spec: jump to a slide index, clamped to
`[0, len-1]`; navigation "reports whether the cursor actually moved". -/
def Presentation.jumpSlide (p : Presentation) (index : Nat) : Bool × Presentation :=
  let target := min index (p.slides.length - 1)
  (target != p.currentSlideIndex, { p with currentSlideIndex := target })

/-- Modelled from the spec: advance the cursor by one, clamped. -/
def Presentation.jumpNextSlide (p : Presentation) : Bool × Presentation :=
  p.jumpSlide (p.currentSlideIndex + 1)

/-- Modelled from the spec: move the cursor back by one (saturating). -/
def Presentation.jumpPreviousSlide (p : Presentation) : Bool × Presentation :=
  p.jumpSlide (p.currentSlideIndex - 1)

/-- Modelled from the spec: jump to the first slide. -/
def Presentation.jumpFirstSlide (p : Presentation) : Bool × Presentation :=
  p.jumpSlide 0

/-- Modelled from the spec: jump to the last slide. -/
def Presentation.jumpLastSlide (p : Presentation) : Bool × Presentation :=
  p.jumpSlide (p.slides.length - 1)

/-! ## Theme -/

/-- Positioning of the author line on the intro slide. -/
inductive AuthorPositioning
  | belowTitle
  | pageBottom
deriving DecidableEq

/-- Default style: base colors and optional horizontal margin. -/
structure DefaultStyle where
  colors : Colors := {}
  margin : Option Margin := none

/-- Slide title (setex heading) style. -/
structure SlideTitleStyle where
  colors : Colors := {}
  paddingTop : Option Nat := none
  paddingBottom : Option Nat := none
  separator : Bool := false

/-- Per-level heading style. -/
structure HeadingStyle where
  prefixText : Option String := none
  colors : Colors := {}

/-- Intro slide styles. -/
structure IntroSlideStyle where
  titleColors : Colors := {}
  subtitleColors : Colors := {}
  authorColors : Colors := {}
  authorPositioning : AuthorPositioning := .belowTitle

/-- Block quote style. -/
structure BlockQuoteStyle where
  prefixText : Option String := none
  colors : Colors := {}

/-- Inline code style. -/
structure InlineCodeStyle where
  colors : Colors := {}

/-- Code block style. -/
structure CodeStyle where
  themeName : Option String := none
  paddingHorizontal : Option Nat := none
  paddingVertical : Option Nat := none

/-- The presentation theme, restricted to the fields the builder reads. -/
structure Theme where
  defaultStyle : DefaultStyle := {}
  slideTitle : SlideTitleStyle := {}
  h1 : HeadingStyle := {}
  h2 : HeadingStyle := {}
  h3 : HeadingStyle := {}
  h4 : HeadingStyle := {}
  h5 : HeadingStyle := {}
  h6 : HeadingStyle := {}
  introSlide : IntroSlideStyle := {}
  blockQuote : BlockQuoteStyle := {}
  inlineCode : InlineCodeStyle := {}
  code : CodeStyle := {}
  footer : FooterStyle := .empty
  alignment : ElementType → Alignment := fun _ => .left (.fixed 0)

/-! ## Input elements -/

/-- Kind of a list item: unordered bullet or ordered marker carrying the
item's own pre-resolved number. -/
inductive ListItemType
  | unordered
  | orderedParens (number : Nat)
  | orderedPeriod (number : Nat)
deriving DecidableEq

/-- A single list item. -/
structure ListItem where
  depth : Nat
  contents : Text
  itemType : ListItemType
deriving DecidableEq

/-- A code block: raw contents plus language tag. -/
structure Code where
  contents : String
  language : String
deriving DecidableEq

/-- One table row: a list of cells. -/
structure TableRow where
  cells : List Text
deriving DecidableEq

/-- A table: header row plus data rows. -/
structure Table where
  header : TableRow
  rows : List TableRow
deriving DecidableEq

/-- An inline part of a paragraph. -/
inductive ParagraphElement
  | text (t : Text)
  | lineBreak
deriving DecidableEq

/-- The structural elements produced by the external markdown parser. -/
inductive MarkdownElement
  | frontMatter (contents : String)
  | setexHeading (text : Text)
  | heading (level : Nat) (text : Text)
  | paragraph (elements : List ParagraphElement)
  | list (items : List ListItem)
  | code (code : Code)
  | table (table : Table)
  | thematicBreak
  | comment (comment : String)
  | blockQuote (lines : List String)
  | image (path : String)
deriving DecidableEq

/-- The parsed form of a single-line directive comment. -/
inductive CommentCommand
  | pause
  | endSlide
  | initColumnLayout (columns : List Nat)
  | column (column : Nat)
  | resetLayout
deriving DecidableEq

/-! ## Builder state -/

/-- Layout state of the directive state machine. -/
inductive LayoutState
  | default
  | inLayout (columnsCount : Nat)
  | inColumn (column : Nat) (columnsCount : Nat)
deriving DecidableEq

/-- Errors raised while building a presentation. -/
inductive BuildError
  | loadImage
  | invalidMetadata (message : String)
  | invalidTheme
  | invalidCodeTheme
  | invalidLayout (message : String)
  | noLayout
  | alreadyInColumn
  | columnIndexTooLarge
  | notInsideColumn
  | commandParse
deriving DecidableEq

/-- The shared footer context: written by the builder, read by footer
instructions at draw time. -/
structure FooterContext where
  totalSlides : Nat := 0
  author : String := ""
deriving DecidableEq

/-- Ghost trace events recording the order of slide pushes and of the one
write to `FooterContext.total_slides`. -/
inductive BuildEvent
  | slidePushed
  | totalSlidesWritten
deriving DecidableEq

/-- A highlighted code line: the formatted (colored) text and the original
input line. -/
structure CodeLine where
  formatted : String
  original : String
deriving DecidableEq

/-- The external syntax highlighter interface: code text and language to
highlighted lines. -/
def Highlighter : Type := String → String → List CodeLine

/-- Theme selection in the front matter: a built-in name XOR a path, plus
an optional override patch (opaque here; merging is external). -/
structure PresentationThemeMetadata where
  name : Option String := none
  path : Option String := none
  overrides : Option Unit := none

/-- Parsed front matter metadata. -/
structure PresentationMetadata where
  title : Option String := none
  subTitle : Option String := none
  author : Option String := none
  theme : PresentationThemeMetadata := {}

/-- External collaborators of the builder (spec §6): parsing, widths,
resource and theme loading. All are parameters of the embedding. -/
structure Externals where
  charWidth : Char → Nat
  parseComment : String → Except Unit CommentCommand
  parseMetadata : String → Except String PresentationMetadata
  themeFromName : String → Option Theme
  loadTheme : String → Except Unit Theme
  mergeTheme : Theme → Unit → Except String Theme
  newHighlighter : String → Option Highlighter
  loadImage : String → Except Unit Nat

/-- The builder's mutable state (`PresentationBuilder`), plus the ghost
`events` trace. -/
structure BuilderState where
  slideOperations : List RenderOperation
  slides : List Slide
  highlighter : Highlighter
  theme : Theme
  ignoreElementLineBreak : Bool
  needsEnterColumn : Bool
  lastElementIsList : Bool
  footerContext : FooterContext
  layout : LayoutState
  events : List BuildEvent

/-- `PresentationBuilder::new`. -/
def PresentationBuilder.new (defaultHighlighter : Highlighter) (defaultTheme : Theme) :
    BuilderState :=
  { slideOperations := []
    slides := []
    highlighter := defaultHighlighter
    theme := defaultTheme
    ignoreElementLineBreak := false
    needsEnterColumn := false
    lastElementIsList := false
    footerContext := {}
    layout := .default
    events := [] }

/-- Whether a slide ends with a hard (full state reset) or soft boundary. -/
inductive TerminateMode
  | keepState
  | resetState

/-! ## Builder operations -/

/-- `DEFAULT_BOTTOM_SLIDE_MARGIN`. -/
def defaultBottomSlideMargin : Nat := 3

/-- `push_line_break`. -/
def pushLineBreak (st : BuilderState) : BuilderState :=
  { st with slideOperations := st.slideOperations ++ [.renderLineBreak] }

/-- `push_slide_prelude`: color set, clear screen, margin, leading line
break. -/
def pushSlidePrelude (st : BuilderState) : BuilderState :=
  let colors := st.theme.defaultStyle.colors
  let st :=
    { st with
      slideOperations :=
        st.slideOperations ++
          [.setColors colors, .clearScreen,
           .applyMargin
             ⟨st.theme.defaultStyle.margin.getD (.fixed 0), defaultBottomSlideMargin⟩] }
  pushLineBreak st

/-- `validate_last_operation`: with the pending-enter-column flag armed,
the last emitted instruction is inspected once it is no longer the
`InitColumnLayout` itself. -/
def validateLastOperation (st : BuilderState) : Except BuildError BuilderState :=
  if !st.needsEnterColumn then .ok st
  else
    match st.slideOperations.getLast? with
    | none => .ok st
    | some (.initColumnLayout _) => .ok st
    | some (.enterColumn _) => .ok { st with needsEnterColumn := false }
    | some .exitLayout => .ok { st with needsEnterColumn := false }
    | some _ => .error .notInsideColumn

/-- The recoloring `push_aligned_text` applies to inline-code chunks. -/
def recolorChunks (theme : Theme) (text : Text) : List StyledText :=
  text.chunks.map fun chunk =>
    if chunk.style.code then
      { chunk with style := { chunk.style with colors := theme.inlineCode.colors } }
    else chunk

/-- `push_aligned_text`. -/
def pushAlignedText (st : BuilderState) (text : Text) (alignment : Alignment) :
    BuilderState :=
  let texts := recolorChunks st.theme text
  if texts.isEmpty then st
  else { st with slideOperations := st.slideOperations ++ [.renderTextLine texts alignment] }

/-- `push_text`: aligned per the theme's element-type alignment. -/
def pushText (st : BuilderState) (text : Text) (elementType : ElementType) : BuilderState :=
  pushAlignedText st text (st.theme.alignment elementType)

/-- `push_footer`: exit layouts, pop the margin, jump to the bottom and
emit the dynamic footer instruction for the slide being closed. -/
def pushFooter (st : BuilderState) : BuilderState :=
  let generator : FooterGenerator := ⟨st.theme.footer, st.slides.length⟩
  { st with
    slideOperations :=
      st.slideOperations ++ [.exitLayout, .popMargin, .jumpToBottom, .renderDynamic generator] }

/-- `terminate_slide`: append the footer, close the buffer into a slide,
start a fresh prelude, and on a hard boundary reset the transient state. -/
def terminateSlide (st : BuilderState) (mode : TerminateMode) : BuilderState :=
  let st := pushFooter st
  let st :=
    { st with
      slides := st.slides ++ [⟨st.slideOperations⟩]
      slideOperations := []
      events := st.events ++ [.slidePushed] }
  let st := pushSlidePrelude st
  match mode with
  | .resetState =>
      { st with ignoreElementLineBreak := true, needsEnterColumn := false, layout := .default }
  | .keepState => st

/-- `process_pause`: pop a trailing line break after a list, snapshot the
buffer, close the slide, and replay the snapshot as the next slide's
starting contents. -/
def processPause (st : BuilderState) : BuilderState :=
  let st :=
    if st.lastElementIsList ∧ st.slideOperations.getLast? = some .renderLineBreak then
      { st with slideOperations := st.slideOperations.dropLast }
    else st
  let nextOperations := st.slideOperations
  let st := terminateSlide st .keepState
  { st with slideOperations := nextOperations }

/-- `validate_column_layout`. -/
def validateColumnLayout (columns : List Nat) : Except BuildError Unit :=
  if columns.isEmpty then .error (.invalidLayout "need at least one column")
  else if columns.any (· == 0) then .error (.invalidLayout "cant have zero sized columns")
  else .ok ()

/-- The directive dispatch inside `process_comment`, after parsing. -/
def processCommand (st : BuilderState) (command : CommentCommand) :
    Except BuildError BuilderState :=
  match command with
  | .pause => .ok (processPause st)
  | .endSlide => .ok (terminateSlide st .resetState)
  | .initColumnLayout columns =>
      match validateColumnLayout columns with
      | .error e => .error e
      | .ok _ =>
          .ok
            { st with
              layout := .inLayout columns.length
              slideOperations := st.slideOperations ++ [.initColumnLayout columns]
              needsEnterColumn := true }
  | .resetLayout =>
      .ok
        { st with
          layout := .default
          slideOperations := st.slideOperations ++ [.exitLayout, .renderLineBreak] }
  | .column column =>
      let info : Option (Option Nat × Nat) :=
        match st.layout with
        | .inColumn current columnsCount => some (some current, columnsCount)
        | .inLayout columnsCount => some (none, columnsCount)
        | .default => none
      match info with
      | none => .error .noLayout
      | some (currentColumn, columnsCount) =>
          if currentColumn = some column then .error .alreadyInColumn
          else if columnsCount ≤ column then .error .columnIndexTooLarge
          else
            .ok
              { st with
                layout := .inColumn column columnsCount
                slideOperations := st.slideOperations ++ [.enterColumn column] }

/-- `process_comment`: multi-line comments are authoring notes; single-line
comments parse into a directive, and no line break follows a directive. -/
def processComment (ext : Externals) (st : BuilderState) (comment : String) :
    Except BuildError BuilderState :=
  if comment.data.contains '\n' then .ok st
  else
    match ext.parseComment comment with
    | .error _ => .error .commandParse
    | .ok command =>
        match processCommand st command with
        | .error e => .error e
        | .ok st => .ok { st with ignoreElementLineBreak := true }

/-- `push_slide_title` (setex headings). -/
def pushSlideTitle (st : BuilderState) (text : Text) : BuilderState :=
  let style := st.theme.slideTitle
  let text := text.applyStyle { bold := true, colors := style.colors }
  let st := (List.range (style.paddingTop.getD 0)).foldl (fun st _ => pushLineBreak st) st
  let st := pushText st text .slideTitle
  let st := pushLineBreak st
  let st := (List.range (style.paddingBottom.getD 0)).foldl (fun st _ => pushLineBreak st) st
  let st :=
    if style.separator then
      { st with slideOperations := st.slideOperations ++ [.renderSeparator] }
    else st
  let st := pushLineBreak st
  { st with ignoreElementLineBreak := true }

/-- `push_heading`. The source panics on levels outside 1-6; the external
parser only produces those, so out-of-range levels are mapped like 6. -/
def pushHeading (st : BuilderState) (level : Nat) (text : Text) : BuilderState :=
  let pair :=
    match level with
    | 1 => (ElementType.heading1, st.theme.h1)
    | 2 => (ElementType.heading2, st.theme.h2)
    | 3 => (ElementType.heading3, st.theme.h3)
    | 4 => (ElementType.heading4, st.theme.h4)
    | 5 => (ElementType.heading5, st.theme.h5)
    | _ => (ElementType.heading6, st.theme.h6)
  let text :=
    match pair.2.prefixText with
    | some p => Text.mk (⟨p ++ " ", {}⟩ :: text.chunks)
    | none => text
  let text := text.applyStyle { bold := true, colors := pair.2.colors }
  let st := pushText st text pair.1
  pushLineBreak st

/-- `push_paragraph`: each text run becomes one line plus line break;
explicit line breaks are no-ops. -/
def pushParagraph (st : BuilderState) (elements : List ParagraphElement) : BuilderState :=
  elements.foldl
    (fun st element =>
      match element with
      | .text t => pushLineBreak (pushText st t .paragraph)
      | .lineBreak => st)
    st

/-- `push_separator` (thematic break). -/
def pushSeparator (st : BuilderState) : BuilderState :=
  { st with slideOperations := st.slideOperations ++ [.renderSeparator, .renderLineBreak] }

/-- `push_image`: resolve through the external resource loader. -/
def pushImage (ext : Externals) (st : BuilderState) (path : String) :
    Except BuildError BuilderState :=
  match ext.loadImage path with
  | .ok image => .ok { st with slideOperations := st.slideOperations ++ [.renderImage image] }
  | .error _ => .error .loadImage

/-- The list item marker: `3 * (depth+1)` spaces plus a depth-dependent
bullet, or the ordered marker using the item's own number. -/
def listItemPrefixText (item : ListItem) : String :=
  let padding := String.mk (List.replicate ((item.depth + 1) * 3) ' ')
  match item.itemType with
  | .unordered =>
      let delimiter : Char :=
        if item.depth = 0 then '•' else if item.depth = 1 then '◦' else '▪'
      padding.push delimiter
  | .orderedParens number => padding ++ toString number ++ ") "
  | .orderedPeriod number => padding ++ toString number ++ ". "

/-- `push_list_item`: marker line, then the body left-aligned with a fixed
margin of `prefix.len()` (a byte count in the source). -/
def pushListItem (st : BuilderState) (item : ListItem) : BuilderState :=
  let pfx := listItemPrefixText item
  let prefixLength := rustStrLen pfx
  let st := pushText st ⟨[⟨pfx, {}⟩]⟩ .list
  let st := pushAlignedText st item.contents (.left (.fixed prefixLength))
  pushLineBreak st

/-- `push_list`. -/
def pushList (st : BuilderState) (items : List ListItem) : BuilderState :=
  items.foldl pushListItem st

/-- `push_block_quote`: prefix every line, compute the shared block width,
and bracket the lines in a color set/restore pair. -/
def pushBlockQuote (ext : Externals) (st : BuilderState) (lines : List String) :
    BuilderState :=
  let pfx := st.theme.blockQuote.prefixText.getD ""
  let blockLength :=
    (lines.map (fun line => strWidth ext.charWidth line + strWidth ext.charWidth pfx)).foldl
      max 0
  let alignment := st.theme.alignment .blockQuote
  let st :=
    { st with slideOperations := st.slideOperations ++ [.setColors st.theme.blockQuote.colors] }
  let st :=
    lines.foldl
      (fun st line =>
        let line := pfx ++ line
        let lineLength := strWidth ext.charWidth line
        pushLineBreak
          { st with
            slideOperations :=
              st.slideOperations ++
                [.renderPreformattedLine ⟨line, lineLength, blockLength, alignment⟩] })
      st
  { st with slideOperations := st.slideOperations ++ [.setColors st.theme.defaultStyle.colors] }

/-- The padding `push_code` injects around the raw code text before
highlighting: a blank line above/below for vertical padding, spaces at the
start of every line for horizontal padding. -/
def padCode (horizontalPadding verticalPadding : Nat) (contents : String) : String :=
  if horizontalPadding = 0 ∧ verticalPadding = 0 then contents
  else
    let code := if verticalPadding > 0 then "\n" else ""
    let code :=
      if horizontalPadding > 0 then
        (rustLines contents).foldl
          (fun acc line =>
            acc ++ String.mk (List.replicate horizontalPadding ' ') ++ line ++ "\n")
          code
      else code ++ contents
    if verticalPadding > 0 then code ++ "\n" else code

/-- `push_code`: pad, highlight, and emit one preformatted line per
highlighted line, all sharing the same block length. -/
def pushCode (ext : Externals) (st : BuilderState) (code : Code) : BuilderState :=
  let horizontalPadding := st.theme.code.paddingHorizontal.getD 0
  let verticalPadding := st.theme.code.paddingVertical.getD 0
  let codeText := padCode horizontalPadding verticalPadding code.contents
  let blockLength :=
    ((rustLines codeText).map (strWidth ext.charWidth)).foldl max 0 + horizontalPadding
  let alignment := st.theme.alignment .code
  (st.highlighter codeText code.language).foldl
    (fun st codeLine =>
      let trimmed := rustTrimEnd codeLine.formatted
      let originalLength :=
        strWidth ext.charWidth codeLine.original -
          (strWidth ext.charWidth codeLine.formatted - strWidth ext.charWidth trimmed)
      pushLineBreak
        { st with
          slideOperations :=
            st.slideOperations ++
              [.renderPreformattedLine ⟨trimmed, originalLength, blockLength, alignment⟩] })
    st

/-- `prepare_table_row`: flatten a row, separating cells by `" │ "` and
right-padding each cell to its column width. -/
def prepareTableRow (w : Char → Nat) (row : TableRow) (widths : List Nat) : Text :=
  ⟨(row.cells.enum).foldl
      (fun chunks pair =>
        let chunks := if pair.1 > 0 then chunks ++ [⟨" │ ", {}⟩] else chunks
        let textLength := (pair.2.chunks.map (fun c => strWidth w c.text)).sum
        let chunks := chunks ++ pair.2.chunks
        let cellWidth := widths.getD pair.1 0
        if textLength < cellWidth then
          chunks ++ [⟨String.mk (List.replicate (cellWidth - textLength) ' '), {}⟩]
        else chunks)
      []⟩

/-- The synthesized separator line between a table's header and body. -/
def tableSeparator (widths : List Nat) : Text :=
  ⟨(widths.enum).foldl
      (fun chunks pair =>
        let margin := if pair.1 > 0 ∧ pair.1 < widths.length - 1 then 2 else 1
        let contents :=
          (if pair.1 > 0 then "┼" else "") ++
            String.mk (List.replicate (pair.2 + margin) '─')
        chunks ++ [StyledText.mk contents {}])
      []⟩

/-- `push_table`. -/
def pushTable (ext : Externals) (st : BuilderState) (table : Table) : BuilderState :=
  let columns := table.header.cells.length
  let widths :=
    (List.range columns).map fun column =>
      (((table.header :: table.rows).map
            (fun row =>
              ((row.cells.getD column ⟨[]⟩).chunks.map
                  (fun c => strWidth ext.charWidth c.text)).sum)).foldl
        max 0)
  let st := pushLineBreak (pushText st (prepareTableRow ext.charWidth table.header widths) .table)
  let st := pushLineBreak (pushText st (tableSeparator widths) .table)
  table.rows.foldl
    (fun st row => pushLineBreak (pushText st (prepareTableRow ext.charWidth row widths) .table))
    st

/-- `push_intro_slide`: vertically centered title, optional subtitle and
author, closed with a hard boundary. -/
def pushIntroSlide (st : BuilderState) (metadata : PresentationMetadata) : BuilderState :=
  let styles := st.theme.introSlide
  let title : StyledText :=
    ⟨metadata.title.getD "", { bold := true, colors := styles.titleColors }⟩
  let subTitle := metadata.subTitle.map fun t => StyledText.mk t { colors := styles.subtitleColors }
  let author := metadata.author.map fun t => StyledText.mk t { colors := styles.authorColors }
  let st := { st with slideOperations := st.slideOperations ++ [.jumpToVerticalCenter] }
  let st := pushText st ⟨[title]⟩ .presentationTitle
  let st := pushLineBreak st
  let st :=
    match subTitle with
    | some text => pushLineBreak (pushText st ⟨[text]⟩ .presentationSubTitle)
    | none => st
  let st :=
    match author with
    | some text =>
        let st :=
          match styles.authorPositioning with
          | .belowTitle => pushLineBreak (pushLineBreak (pushLineBreak st))
          | .pageBottom => { st with slideOperations := st.slideOperations ++ [.jumpToBottom] }
        pushText st ⟨[text]⟩ .presentationAuthor
    | none => st
  terminateSlide st .resetState

/-- The theme resolution chain of `set_theme`: name XOR path, then named
theme, then path theme, then the override merge, each through its external
loader. `set_theme` only ever assigns `self.theme`, so the chain is stated
over the theme value. -/
def resolveTheme (ext : Externals) (theme : Theme) (metadata : PresentationThemeMetadata) :
    Except BuildError Theme :=
  if metadata.name.isSome ∧ metadata.path.isSome then
    .error (.invalidMetadata "cannot have both theme path and theme name")
  else
    let step1 : Except BuildError Theme :=
      match metadata.name with
      | some themeName =>
          match ext.themeFromName themeName with
          | some theme => .ok theme
          | none => .error (.invalidMetadata "theme does not exist")
      | none => .ok theme
    match step1 with
    | .error e => .error e
    | .ok theme =>
        let step2 : Except BuildError Theme :=
          match metadata.path with
          | some themePath =>
              match ext.loadTheme themePath with
              | .ok theme => .ok theme
              | .error _ => .error .invalidTheme
          | none => .ok theme
        match step2 with
        | .error e => .error e
        | .ok theme =>
            match metadata.overrides with
            | some ov =>
                match ext.mergeTheme theme ov with
                | .ok theme => .ok theme
                | .error e => .error (.invalidMetadata e)
            | none => .ok theme

/-- `set_theme`. -/
def setTheme (ext : Externals) (st : BuilderState) (metadata : PresentationThemeMetadata) :
    Except BuildError BuilderState :=
  match resolveTheme ext st.theme metadata with
  | .ok theme => .ok { st with theme := theme }
  | .error e => .error e

/-- `set_code_theme`: swap the highlighter when the theme names one. -/
def setCodeTheme (ext : Externals) (st : BuilderState) : Except BuildError BuilderState :=
  match st.theme.code.themeName with
  | some theme =>
      match ext.newHighlighter theme with
      | some highlighter => .ok { st with highlighter := highlighter }
      | none => .error .invalidCodeTheme
  | none => .ok st

/-- `process_front_matter`: parse metadata, record the author in the shared
footer context, resolve the theme, and synthesize an intro slide when any
of title/subtitle/author is present. -/
def processFrontMatter (ext : Externals) (st : BuilderState) (contents : String) :
    Except BuildError BuilderState :=
  match ext.parseMetadata contents with
  | .error e => .error (.invalidMetadata e)
  | .ok metadata =>
      let st :=
        { st with footerContext := { st.footerContext with author := metadata.author.getD "" } }
      match setTheme ext st metadata.theme with
      | .error e => .error e
      | .ok st =>
          if metadata.title.isSome ∨ metadata.subTitle.isSome ∨ metadata.author.isSome then
            .ok (pushIntroSlide (pushSlidePrelude st) metadata)
          else .ok st

/-- `process_element`. -/
def processElement (ext : Externals) (st : BuilderState) (element : MarkdownElement) :
    Except BuildError BuilderState :=
  let isList := match element with | .list _ => true | _ => false
  let result : Except BuildError BuilderState :=
    match element with
    | .frontMatter _ => .ok { st with ignoreElementLineBreak := true }
    | .setexHeading text => .ok (pushSlideTitle st text)
    | .heading level text => .ok (pushHeading st level text)
    | .paragraph elements => .ok (pushParagraph st elements)
    | .list items => .ok (pushList st items)
    | .code code => .ok (pushCode ext st code)
    | .table table => .ok (pushTable ext st table)
    | .thematicBreak => .ok (pushSeparator st)
    | .comment comment => processComment ext st comment
    | .blockQuote lines => .ok (pushBlockQuote ext st lines)
    | .image path => pushImage ext st path
  match result with
  | .error e => .error e
  | .ok st => .ok { st with lastElementIsList := isList }

/-- One iteration of the element loop in `build`. -/
def buildLoopStep (ext : Externals) (st : BuilderState) (element : MarkdownElement) :
    Except BuildError BuilderState :=
  match processElement ext { st with ignoreElementLineBreak := false } element with
  | .error e => .error e
  | .ok st =>
      match validateLastOperation st with
      | .error e => .error e
      | .ok st => .ok (if st.ignoreElementLineBreak then st else pushLineBreak st)

/-- The element loop in `build`. -/
def buildLoop (ext : Externals) : List MarkdownElement → BuilderState →
    Except BuildError BuilderState
  | [], st => .ok st
  | element :: rest, st =>
      match buildLoopStep ext st element with
      | .error e => .error e
      | .ok st => buildLoop ext rest st

/-- The result of a successful build: the presentation, the final shared
footer context, and the ghost event trace. -/
structure BuildOutput where
  presentation : Presentation
  footerContext : FooterContext
  events : List BuildEvent
deriving DecidableEq

instance : Inhabited BuildOutput := ⟨⟨⟨[], 0⟩, {}, []⟩⟩

/-- `PresentationBuilder::build`. -/
def build (ext : Externals) (defaultHighlighter : Highlighter) (defaultTheme : Theme)
    (elements : List MarkdownElement) : Except BuildError BuildOutput :=
  let st := PresentationBuilder.new defaultHighlighter defaultTheme
  let afterFrontMatter : Except BuildError BuilderState :=
    match elements.head? with
    | some (.frontMatter contents) => processFrontMatter ext st contents
    | _ => .ok st
  match afterFrontMatter with
  | .error e => .error e
  | .ok st =>
      match setCodeTheme ext st with
      | .error e => .error e
      | .ok st =>
          let st := if st.slideOperations.isEmpty then pushSlidePrelude st else st
          match buildLoop ext elements st with
          | .error e => .error e
          | .ok st =>
              let st :=
                if st.slideOperations.isEmpty then st else terminateSlide st .resetState
              let st :=
                { st with
                  footerContext := { st.footerContext with totalSlides := st.slides.length }
                  events := st.events ++ [BuildEvent.totalSlidesWritten] }
              .ok ⟨Presentation.new st.slides, st.footerContext, st.events⟩

/-! ## Footer generator (draw time) -/

/-- The live terminal size a dynamic instruction is evaluated against. -/
structure WindowSize where
  rows : Nat
  columns : Nat
deriving DecidableEq

/-- `FooterGenerator::render_template`: substitute the placeholders using
the shared context, read at draw time. -/
def renderTemplate (template : String) (currentSlide : String) (context : FooterContext)
    (colors : Colors) (alignment : Alignment) : RenderOperation :=
  let contents :=
    ((template.replace "{current_slide}" currentSlide).replace "{total_slides}"
          (toString context.totalSlides)).replace
      "{author}" context.author
  .renderTextLine [⟨contents, { colors := colors }⟩] alignment

/-- The progress bar text: the fill character repeated
`ceil(total_columns * (current+1) / total)` times. The source computes the
ratio in `f64` and takes `ceil`; it is modelled as exact rational ceiling
(0 when the slide count is 0). -/
def progressBarText (w : Char → Nat) (character : Option Char) (currentSlide totalSlides : Nat)
    (dimensions : WindowSize) : String :=
  let character := (character.getD '█').toString
  let totalColumns := dimensions.columns / strWidth w character
  let columnsRat :=
    if totalSlides = 0 then 0
    else (totalColumns * (currentSlide + 1) + totalSlides - 1) / totalSlides
  (List.replicate columnsRat character).foldl (· ++ ·) ""

/-- `FooterGenerator::as_render_operations`: resolve the dynamic footer
against the context and terminal size supplied at draw time. -/
def FooterGenerator.asRenderOperations (w : Char → Nat) (generator : FooterGenerator)
    (context : FooterContext) (dimensions : WindowSize) : List RenderOperation :=
  match generator.style with
  | .template left center right colors =>
      let currentSlide := toString (generator.currentSlide + 1)
      let margin := Margin.fixed 1
      let alignments : List Alignment :=
        [.left margin, .center 0 margin, .right margin]
      (([left, center, right].zip alignments).filterMap fun pair =>
        pair.1.map fun text => renderTemplate text currentSlide context colors pair.2)
  | .progressBar character colors =>
      [.renderTextLine
          [⟨progressBarText w character generator.currentSlide context.totalSlides dimensions,
            { colors := colors }⟩]
          (.left (.fixed 0))]
  | .empty => []

/-! ## Presenter runtime -/

/-- The user commands the presenter dispatches. -/
inductive UserCommand
  | redraw
  | jumpNextSlide
  | jumpPreviousSlide
  | jumpFirstSlide
  | jumpLastSlide
  | jumpSlide (number : Nat)
  | exit
deriving DecidableEq

/-- The side effect a user command produces. -/
inductive CommandSideEffect
  | exit
  | redraw
  | none
deriving DecidableEq

/-- The presenter's state machine states. -/
inductive PresenterState
  | empty
  | presenting (presentation : Presentation)
  | failure (error : String) (presentation : Presentation)
deriving DecidableEq

/-- `PresenterState::presentation`. The source panics on `Empty`; the
runtime never reaches it past construction, and the default presentation
stands in for the panic. -/
def PresenterState.presentationD : PresenterState → Presentation
  | .presenting presentation => presentation
  | .failure _ presentation => presentation
  | .empty => ⟨[], 0⟩

/-- Whether a live presentation is locked against reloads. -/
inductive PresentMode
  | development
  | presentation
deriving DecidableEq

/-- `Presenter::apply_user_command`: `Exit` always works; everything else
only applies while `Presenting`, where navigation reports whether a redraw
is needed. -/
def applyUserCommand (state : PresenterState) (command : UserCommand) :
    CommandSideEffect × PresenterState :=
  match state, command with
  | state, .exit => (.exit, state)
  | .presenting presentation, command =>
      let result :=
        match command with
        | .redraw => (true, presentation)
        | .jumpNextSlide => presentation.jumpNextSlide
        | .jumpPreviousSlide => presentation.jumpPreviousSlide
        | .jumpFirstSlide => presentation.jumpFirstSlide
        | .jumpLastSlide => presentation.jumpLastSlide
        | .jumpSlide number => presentation.jumpSlide (number - 1)
        | .exit => (false, presentation)
      (if result.1 then .redraw else .none, .presenting result.2)
  | state, _ => (.none, state)

/-- `Presenter::try_reload`: a no-op in locked presentation mode;
otherwise the reload outcome (the external load and differ are
parameters) either replaces the state with the new presentation at the
first differing slide, or degrades into `Failure` keeping the previous
presentation. -/
def tryReload (mode : PresentMode) (state : PresenterState)
    (loadResult : Except String Presentation)
    (firstModifiedSlide : Presentation → Presentation → Option Nat) : PresenterState :=
  match mode with
  | .presentation => state
  | .development =>
      match loadResult with
      | .ok presentation =>
          let current := state.presentationD
          let targetSlide :=
            (firstModifiedSlide current presentation).getD current.currentSlideIndex
          .presenting (presentation.jumpSlide targetSlide).2
      | .error e => .failure e state.presentationD

/-! ## Concrete fixtures for witnesses and counterexamples -/

/-- Modelled from the spec: the single-line directive grammar of §6
(`pause`, `end_slide`, `reset_layout`, `column_layout: [u8, ...]`,
`column: <uint>`, whitespace-tolerant), standing in for the external
serde-yaml comment parser. -/
def specParseComment (s : String) : Except Unit CommentCommand :=
  let t := trimChars s.data
  if t = "pause".data then .ok .pause
  else if t = "end_slide".data then .ok .endSlide
  else if t = "reset_layout".data then .ok .resetLayout
  else if "column_layout:".data.isPrefixOf t then
    match parseNatListChars (trimChars (t.drop "column_layout:".data.length)) with
    | some columns => .ok (.initColumnLayout columns)
    | none => .error ()
  else if "column:".data.isPrefixOf t then
    match digitsToNat? (trimChars (t.drop "column:".data.length)) with
    | some n => .ok (.column n)
    | none => .error ()
  else .error ()

/-- A line-preserving identity highlighter (a legitimate instance of the
external highlighter interface, e.g. for an unknown language). -/
def hl0 : Highlighter := fun codeText _ => (rustLines codeText).map fun line => ⟨line, line⟩

/-- The default theme used by concrete runs. -/
def theme0 : Theme := {}

/-- The default theme with one column of horizontal code padding. -/
def theme1 : Theme := { theme0 with code := { theme0.code with paddingHorizontal := some 1 } }

/-- Concrete externals for witnesses: unicode widths, the spec directive
grammar, and inert resource loaders. -/
def ext0 : Externals :=
  { charWidth := uniWidth
    parseComment := specParseComment
    parseMetadata := fun _ => .error "unused"
    themeFromName := fun _ => Option.none
    loadTheme := fun _ => .error ()
    mergeTheme := fun theme _ => .ok theme
    newHighlighter := fun _ => Option.none
    loadImage := fun _ => .error () }

/-! ## Slide invariant -/

/-- Whether an instruction is a clear-screen. -/
def isClearScreenB (op : RenderOperation) : Bool :=
  match op with
  | .clearScreen => true
  | _ => false

/-- Whether an instruction is a color-set. -/
def isSetColorsB (op : RenderOperation) : Bool :=
  match op with
  | .setColors _ => true
  | _ => false

/-- Number of clear-screen instructions in a sequence. -/
def clearCount (ops : List RenderOperation) : Nat := ops.countP isClearScreenB

/-- Number of color-set instructions in a sequence. -/
def setColorsCount (ops : List RenderOperation) : Nat := ops.countP isSetColorsB

/-- The sequence begins with the slide prelude: one color-set, one
clear-screen, one margin-apply, in that order. -/
def startsWithPrelude (ops : List RenderOperation) : Prop :=
  ∃ c m rest,
    ops =
      RenderOperation.setColors c :: RenderOperation.clearScreen ::
        RenderOperation.applyMargin m :: rest

/-- A well-formed slide instruction sequence: it starts with the prelude
and contains exactly one clear-screen. -/
def goodOps (ops : List RenderOperation) : Prop :=
  startsWithPrelude ops ∧ clearCount ops = 1

/-- Every closed slide is well-formed. -/
def goodSlides (slides : List Slide) : Prop := ∀ s ∈ slides, goodOps s.renderOperations

/-- The builder invariant maintained through the element loop: closed
slides are well-formed, the open buffer is well-formed, and the event
trace records exactly one push per closed slide (and no total-slides
write yet). -/
def BuilderInv (st : BuilderState) : Prop :=
  goodSlides st.slides ∧ goodOps st.slideOperations ∧
    st.events = List.replicate st.slides.length BuildEvent.slidePushed

/-- `st'` extends `st` by appending clear-screen-free instructions to the
open buffer, leaving the closed slides and the event trace unchanged
(other fields may change freely). -/
def bufferExtends (st st' : BuilderState) : Prop :=
  st'.slides = st.slides ∧ st'.events = st.events ∧
    ∃ delta, st'.slideOperations = st.slideOperations ++ delta ∧ clearCount delta = 0

/-! ## Claim-side definitions and fixtures -/

/-- Stated from the claim wording of C7, for comparison with the code:
the code block width as "the maximum display width over the unpadded
highlighted lines plus the theme's horizontal padding amount". -/
def claimUnpaddedBlockLength (w : Char → Nat) (hl : Highlighter) (c : Code)
    (horizontalPadding : Nat) : Nat :=
  ((hl c.contents c.language).map (fun cl => strWidth w cl.original)).foldl max 0 +
    horizontalPadding

/-- A fresh builder over the default theme. -/
def st0 : BuilderState := PresentationBuilder.new hl0 theme0

/-- A fresh builder over the padded-code theme. -/
def st1 : BuilderState := PresentationBuilder.new hl0 theme1

/-- A builder inside a two-column layout declaration. -/
def stInLayout : BuilderState := { st0 with layout := .inLayout 2 }

/-- A builder inside column 0 of a two-column layout. -/
def stInColumn : BuilderState := { st0 with layout := .inColumn 0 2 }

/-- The output of a concrete successful build, used by witnesses. -/
def buildOutput0 : BuildOutput :=
  ((build ext0 hl0 theme0 [.thematicBreak]).toOption).getD default

/-- The output of a concrete two-slide build (an explicit slide boundary),
used by witnesses. -/
def buildOutput1 : BuildOutput :=
  ((build ext0 hl0 theme0 [.comment "pause", .thematicBreak]).toOption).getD default

/-- A concrete two-slide presentation. -/
def pres2 : Presentation := ⟨[⟨[]⟩, ⟨[]⟩], 0⟩

/-! ## Lemmas: buffer extension -/

theorem clearCount_append (a b : List RenderOperation) :
    clearCount (a ++ b) = clearCount a + clearCount b := by
  simp [clearCount, List.countP_append]

theorem bufferExtends_refl (st : BuilderState) : bufferExtends st st :=
  ⟨rfl, rfl, [], by simp, rfl⟩

theorem bufferExtends_trans {a b c : BuilderState} (h1 : bufferExtends a b)
    (h2 : bufferExtends b c) : bufferExtends a c := by
  obtain ⟨hs1, he1, d1, hops1, hc1⟩ := h1
  obtain ⟨hs2, he2, d2, hops2, hc2⟩ := h2
  refine ⟨hs2.trans hs1, he2.trans he1, d1 ++ d2, ?_, ?_⟩
  · rw [hops2, hops1, List.append_assoc]
  · rw [clearCount_append, hc1, hc2]

theorem goodOps_append {ops delta : List RenderOperation} (h : goodOps ops)
    (hd : clearCount delta = 0) : goodOps (ops ++ delta) := by
  obtain ⟨⟨c, m, rest, hrest⟩, hcount⟩ := h
  refine ⟨⟨c, m, rest ++ delta, by simp [hrest]⟩, ?_⟩
  rw [clearCount_append, hcount, hd]

theorem builderInv_of_extends {st st' : BuilderState} (h : bufferExtends st st')
    (hinv : BuilderInv st) : BuilderInv st' := by
  obtain ⟨hs, he, d, hops, hc⟩ := h
  obtain ⟨hslides, hbuf, hev⟩ := hinv
  exact ⟨hs ▸ hslides, hops ▸ goodOps_append hbuf hc, by rw [he, hs, hev]⟩

theorem extends_append (st : BuilderState) (delta : List RenderOperation)
    (h : clearCount delta = 0) :
    bufferExtends st { st with slideOperations := st.slideOperations ++ delta } :=
  ⟨rfl, rfl, delta, rfl, h⟩

theorem extends_fields (st st' : BuilderState) (hs : st'.slides = st.slides)
    (he : st'.events = st.events) (delta : List RenderOperation)
    (hops : st'.slideOperations = st.slideOperations ++ delta) (hd : clearCount delta = 0) :
    bufferExtends st st' :=
  ⟨hs, he, delta, hops, hd⟩

theorem extends_ite {c : Prop} [Decidable c] {st a b : BuilderState}
    (ha : bufferExtends st a) (hb : bufferExtends st b) :
    bufferExtends st (if c then a else b) := by
  split
  · exact ha
  · exact hb

theorem bufferExtends_foldl {α : Type _} (f : BuilderState → α → BuilderState)
    (h : ∀ st a, bufferExtends st (f st a)) (l : List α) :
    ∀ st, bufferExtends st (l.foldl f st) := by
  induction l with
  | nil => intro st; exact bufferExtends_refl st
  | cons a l ih => intro st; exact bufferExtends_trans (h st a) (ih (f st a))

theorem extends_pushLineBreak (st : BuilderState) : bufferExtends st (pushLineBreak st) :=
  extends_append st [.renderLineBreak] (by simp [clearCount, isClearScreenB])

theorem extends_pushAlignedText (st : BuilderState) (text : Text) (alignment : Alignment) :
    bufferExtends st (pushAlignedText st text alignment) := by
  unfold pushAlignedText
  exact extends_ite
    (bufferExtends_refl st)
    (extends_append st _ (by simp [clearCount, List.countP_cons, isClearScreenB]))

theorem extends_pushText (st : BuilderState) (text : Text) (elementType : ElementType) :
    bufferExtends st (pushText st text elementType) :=
  extends_pushAlignedText st text _

theorem extends_setIgnore (st : BuilderState) (b : Bool) :
    bufferExtends st { st with ignoreElementLineBreak := b } :=
  ⟨rfl, rfl, [], by simp, rfl⟩

theorem extends_setLastElementIsList (st : BuilderState) (b : Bool) :
    bufferExtends st { st with lastElementIsList := b } :=
  ⟨rfl, rfl, [], by simp, rfl⟩

theorem extends_pushSlideTitle (st : BuilderState) (text : Text) :
    bufferExtends st (pushSlideTitle st text) := by
  unfold pushSlideTitle
  exact bufferExtends_trans
    (bufferExtends_trans
      (bufferExtends_trans
        (bufferExtends_trans
          (bufferExtends_trans
            (bufferExtends_foldl _ (fun st _ => extends_pushLineBreak st) _ st)
            (extends_pushText _ _ _))
          (extends_pushLineBreak _))
        (bufferExtends_trans
          (bufferExtends_foldl _ (fun st _ => extends_pushLineBreak st) _ _)
          (extends_ite
            (extends_append _ [.renderSeparator]
              (by simp [clearCount, List.countP_cons, isClearScreenB]))
            (bufferExtends_refl _))))
      (extends_pushLineBreak _))
    (extends_setIgnore _ _)

theorem extends_pushHeading (st : BuilderState) (level : Nat) (text : Text) :
    bufferExtends st (pushHeading st level text) := by
  unfold pushHeading
  exact bufferExtends_trans (extends_pushText _ _ _) (extends_pushLineBreak _)

theorem extends_pushParagraph (st : BuilderState) (elements : List ParagraphElement) :
    bufferExtends st (pushParagraph st elements) := by
  unfold pushParagraph
  refine bufferExtends_foldl _ (fun st e => ?_) _ st
  cases e with
  | text t => exact bufferExtends_trans (extends_pushText _ _ _) (extends_pushLineBreak _)
  | lineBreak => exact bufferExtends_refl st

theorem extends_pushSeparator (st : BuilderState) : bufferExtends st (pushSeparator st) :=
  extends_append st [.renderSeparator, .renderLineBreak]
    (by simp [clearCount, List.countP_cons, isClearScreenB])

theorem extends_pushImage {ext : Externals} {st st' : BuilderState} {path : String}
    (h : pushImage ext st path = .ok st') : bufferExtends st st' := by
  unfold pushImage at h
  split at h
  · cases h
    exact extends_append st _ (by simp [clearCount, List.countP_cons, isClearScreenB])
  · cases h

theorem extends_pushListItem (st : BuilderState) (item : ListItem) :
    bufferExtends st (pushListItem st item) := by
  unfold pushListItem
  exact bufferExtends_trans
    (bufferExtends_trans (extends_pushText _ _ _) (extends_pushAlignedText _ _ _))
    (extends_pushLineBreak _)

theorem extends_pushList (st : BuilderState) (items : List ListItem) :
    bufferExtends st (pushList st items) :=
  bufferExtends_foldl _ extends_pushListItem items st

theorem extends_pushBlockQuote (ext : Externals) (st : BuilderState) (lines : List String) :
    bufferExtends st (pushBlockQuote ext st lines) := by
  unfold pushBlockQuote
  exact bufferExtends_trans
    (bufferExtends_trans
      (extends_append st _ (by simp [clearCount, List.countP_cons, isClearScreenB]))
      (bufferExtends_foldl _
        (fun st line =>
          bufferExtends_trans
            (extends_append st _ (by simp [clearCount, List.countP_cons, isClearScreenB]))
            (extends_pushLineBreak _))
        _ _))
    (extends_append _ _ (by simp [clearCount, List.countP_cons, isClearScreenB]))

theorem extends_pushCode (ext : Externals) (st : BuilderState) (code : Code) :
    bufferExtends st (pushCode ext st code) := by
  unfold pushCode
  exact bufferExtends_foldl _
    (fun st codeLine =>
      bufferExtends_trans
        (extends_append st _ (by simp [clearCount, List.countP_cons, isClearScreenB]))
        (extends_pushLineBreak _))
    _ st

theorem clearCount_footer (g : FooterGenerator) :
    clearCount
        [RenderOperation.exitLayout, RenderOperation.popMargin, RenderOperation.jumpToBottom,
          RenderOperation.renderDynamic g] = 0 := by
  simp [clearCount, List.countP_cons, isClearScreenB]

theorem goodOps_fresh (c : Colors) (m : MarginProperties) :
    goodOps
      [RenderOperation.setColors c, RenderOperation.clearScreen, RenderOperation.applyMargin m,
        RenderOperation.renderLineBreak] :=
  ⟨⟨c, m, [.renderLineBreak], rfl⟩, by simp [clearCount, List.countP_cons, isClearScreenB]⟩

theorem goodOps_dropLast {ops : List RenderOperation} (h : goodOps ops)
    (hlast : ops.getLast? = some RenderOperation.renderLineBreak) : goodOps ops.dropLast := by
  obtain ⟨⟨c, m, rest, hrest⟩, hcount⟩ := h
  subst hrest
  cases rest with
  | nil => simp [List.getLast?] at hlast
  | cons r rs =>
      have hne :
          (RenderOperation.setColors c :: RenderOperation.clearScreen ::
              RenderOperation.applyMargin m :: r :: rs) ≠ [] := by simp
      have hlasteq := List.getLast?_eq_getLast _ hne
      rw [hlast] at hlasteq
      have hgl := Option.some.inj hlasteq
      have hsplit := List.dropLast_append_getLast hne
      rw [← hgl] at hsplit
      constructor
      · exact ⟨c, m, (r :: rs).dropLast, by simp [List.dropLast]⟩
      · have := congrArg clearCount hsplit
        rw [clearCount_append] at this
        have hlb : clearCount [RenderOperation.renderLineBreak] = 0 := by
          simp [clearCount, List.countP_cons, isClearScreenB]
        omega

theorem extends_pushTable (ext : Externals) (st : BuilderState) (table : Table) :
    bufferExtends st (pushTable ext st table) := by
  unfold pushTable
  exact bufferExtends_trans
    (bufferExtends_trans
      (bufferExtends_trans (extends_pushText _ _ _) (extends_pushLineBreak _))
      (bufferExtends_trans (extends_pushText _ _ _) (extends_pushLineBreak _)))
    (bufferExtends_foldl _
      (fun st row => bufferExtends_trans (extends_pushText _ _ _) (extends_pushLineBreak _))
      _ _)

theorem terminateSlide_spec (st : BuilderState) (mode : TerminateMode) :
    terminateSlide st mode =
      { st with
        slideOperations :=
          [RenderOperation.setColors st.theme.defaultStyle.colors, RenderOperation.clearScreen,
            RenderOperation.applyMargin
              ⟨st.theme.defaultStyle.margin.getD (.fixed 0), defaultBottomSlideMargin⟩,
            RenderOperation.renderLineBreak]
        slides :=
          st.slides ++
            [⟨st.slideOperations ++
                [RenderOperation.exitLayout, RenderOperation.popMargin,
                  RenderOperation.jumpToBottom,
                  RenderOperation.renderDynamic ⟨st.theme.footer, st.slides.length⟩]⟩]
        events := st.events ++ [BuildEvent.slidePushed]
        ignoreElementLineBreak :=
          match mode with
          | .resetState => true
          | .keepState => st.ignoreElementLineBreak
        needsEnterColumn :=
          match mode with
          | .resetState => false
          | .keepState => st.needsEnterColumn
        layout :=
          match mode with
          | .resetState => .default
          | .keepState => st.layout } := by
  cases mode <;> simp [terminateSlide, pushFooter, pushSlidePrelude, pushLineBreak]

theorem builderInv_terminateSlide {st : BuilderState} (mode : TerminateMode)
    (h : BuilderInv st) : BuilderInv (terminateSlide st mode) := by
  obtain ⟨hslides, hbuf, hev⟩ := h
  rw [terminateSlide_spec]
  refine ⟨?_, ?_, ?_⟩
  · intro s hs
    rw [List.mem_append, List.mem_singleton] at hs
    rcases hs with hs | hs
    · exact hslides s hs
    · subst hs
      exact goodOps_append hbuf (clearCount_footer _)
  · exact goodOps_fresh _ _
  · simp [hev, List.replicate_succ']

theorem processPause_spec (st : BuilderState) :
    processPause st =
      { st with
        slideOperations :=
          if st.lastElementIsList ∧
              st.slideOperations.getLast? = some RenderOperation.renderLineBreak then
            st.slideOperations.dropLast
          else st.slideOperations
        slides :=
          st.slides ++
            [⟨(if st.lastElementIsList ∧
                    st.slideOperations.getLast? = some RenderOperation.renderLineBreak then
                  st.slideOperations.dropLast
                else st.slideOperations) ++
                [RenderOperation.exitLayout, RenderOperation.popMargin,
                  RenderOperation.jumpToBottom,
                  RenderOperation.renderDynamic ⟨st.theme.footer, st.slides.length⟩]⟩]
        events := st.events ++ [BuildEvent.slidePushed] } := by
  unfold processPause
  split
  · rename_i hc
    simp [terminateSlide_spec, if_pos hc]
  · rename_i hc
    simp [terminateSlide_spec, if_neg hc]

theorem builderInv_processPause {st : BuilderState} (h : BuilderInv st) :
    BuilderInv (processPause st) := by
  obtain ⟨hslides, hbuf, hev⟩ := h
  rw [processPause_spec]
  have hpop :
      goodOps
        (if st.lastElementIsList ∧
            st.slideOperations.getLast? = some RenderOperation.renderLineBreak then
          st.slideOperations.dropLast
        else st.slideOperations) := by
    split
    · rename_i hc
      exact goodOps_dropLast hbuf hc.2
    · exact hbuf
  refine ⟨?_, hpop, ?_⟩
  · intro s hs
    rw [List.mem_append, List.mem_singleton] at hs
    rcases hs with hs | hs
    · exact hslides s hs
    · subst hs
      exact goodOps_append hpop (clearCount_footer _)
  · simp [hev, List.replicate_succ']

theorem extends_step_pushLineBreak {st st' : BuilderState} (h : bufferExtends st st') :
    bufferExtends st (pushLineBreak st') := bufferExtends_trans h (extends_pushLineBreak st')

theorem extends_step_pushText {st st' : BuilderState} (h : bufferExtends st st')
    (text : Text) (elementType : ElementType) :
    bufferExtends st (pushText st' text elementType) :=
  bufferExtends_trans h (extends_pushText st' text elementType)

theorem extends_step_append {st st' : BuilderState} (h : bufferExtends st st')
    (delta : List RenderOperation) (hd : clearCount delta = 0) :
    bufferExtends st { st' with slideOperations := st'.slideOperations ++ delta } :=
  bufferExtends_trans h (extends_append st' delta hd)

theorem builderInv_pushIntroSlide {st : BuilderState} (metadata : PresentationMetadata)
    (h : BuilderInv st) : BuilderInv (pushIntroSlide st metadata) := by
  unfold pushIntroSlide
  apply builderInv_terminateSlide
  apply builderInv_of_extends _ h
  rcases metadata with ⟨mtitle, msub, mauthor, mtheme⟩
  cases msub <;> cases mauthor <;> cases hpos : st.theme.introSlide.authorPositioning <;>
    dsimp only [Option.map] <;>
    repeat
      first
      | exact bufferExtends_refl st
      | apply extends_step_pushLineBreak
      | apply extends_step_pushText
      | apply extends_step_append
      | simp [clearCount, List.countP_cons, isClearScreenB]

theorem builderInv_processCommand {st st' : BuilderState} {command : CommentCommand}
    (h : BuilderInv st) (hok : processCommand st command = .ok st') : BuilderInv st' := by
  cases command with
  | pause =>
      cases hok
      exact builderInv_processPause h
  | endSlide =>
      cases hok
      exact builderInv_terminateSlide _ h
  | initColumnLayout columns =>
      simp only [processCommand] at hok
      split at hok
      · cases hok
      · cases hok
        refine builderInv_of_extends
          (extends_fields st _ rfl rfl [.initColumnLayout columns] rfl ?_) h
        simp [clearCount, List.countP_cons, isClearScreenB]
  | resetLayout =>
      cases hok
      refine builderInv_of_extends
        (extends_fields st _ rfl rfl [.exitLayout, .renderLineBreak] rfl ?_) h
      simp [clearCount, List.countP_cons, isClearScreenB]
  | column column =>
      simp only [processCommand] at hok
      split at hok
      · cases hok
      · split at hok
        · cases hok
        · split at hok
          · cases hok
          · cases hok
            refine builderInv_of_extends
              (extends_fields st _ rfl rfl [.enterColumn column] rfl ?_) h
            simp [clearCount, List.countP_cons, isClearScreenB]

theorem builderInv_processComment {ext : Externals} {st st' : BuilderState} {comment : String}
    (h : BuilderInv st) (hok : processComment ext st comment = .ok st') : BuilderInv st' := by
  unfold processComment at hok
  split at hok
  · cases hok
    exact h
  · split at hok
    · cases hok
    · split at hok
      · cases hok
      · rename_i stMid hmid
        cases hok
        exact builderInv_of_extends (extends_setIgnore _ _) (builderInv_processCommand h hmid)

theorem builderInv_processElement {ext : Externals} {st st' : BuilderState}
    {element : MarkdownElement} (h : BuilderInv st)
    (hok : processElement ext st element = .ok st') : BuilderInv st' := by
  cases element with
  | frontMatter contents =>
      simp only [processElement] at hok
      cases hok
      exact builderInv_of_extends (extends_fields st _ rfl rfl [] (by simp) rfl) h
  | setexHeading text =>
      simp only [processElement] at hok
      cases hok
      exact builderInv_of_extends
        (bufferExtends_trans (extends_pushSlideTitle _ _) (extends_setLastElementIsList _ _)) h
  | heading level text =>
      simp only [processElement] at hok
      cases hok
      exact builderInv_of_extends
        (bufferExtends_trans (extends_pushHeading _ _ _) (extends_setLastElementIsList _ _)) h
  | paragraph elements =>
      simp only [processElement] at hok
      cases hok
      exact builderInv_of_extends
        (bufferExtends_trans (extends_pushParagraph _ _) (extends_setLastElementIsList _ _)) h
  | list items =>
      simp only [processElement] at hok
      cases hok
      exact builderInv_of_extends
        (bufferExtends_trans (extends_pushList _ _) (extends_setLastElementIsList _ _)) h
  | code code =>
      simp only [processElement] at hok
      cases hok
      exact builderInv_of_extends
        (bufferExtends_trans (extends_pushCode _ _ _) (extends_setLastElementIsList _ _)) h
  | table table =>
      simp only [processElement] at hok
      cases hok
      exact builderInv_of_extends
        (bufferExtends_trans (extends_pushTable _ _ _) (extends_setLastElementIsList _ _)) h
  | thematicBreak =>
      simp only [processElement] at hok
      cases hok
      exact builderInv_of_extends
        (bufferExtends_trans (extends_pushSeparator _) (extends_setLastElementIsList _ _)) h
  | comment comment =>
      simp only [processElement] at hok
      split at hok
      · cases hok
      · rename_i stMid hmid
        cases hok
        exact builderInv_of_extends (extends_setLastElementIsList _ _)
          (builderInv_processComment h hmid)
  | blockQuote lines =>
      simp only [processElement] at hok
      cases hok
      exact builderInv_of_extends
        (bufferExtends_trans (extends_pushBlockQuote _ _ _) (extends_setLastElementIsList _ _)) h
  | image path =>
      simp only [processElement] at hok
      split at hok
      · cases hok
      · rename_i stMid hmid
        cases hok
        exact builderInv_of_extends (extends_setLastElementIsList _ _)
          (builderInv_of_extends (extends_pushImage hmid) h)

theorem builderInv_validateLastOperation {st st' : BuilderState} (h : BuilderInv st)
    (hok : validateLastOperation st = .ok st') : BuilderInv st' := by
  unfold validateLastOperation at hok
  split at hok
  · cases hok
    exact h
  · split at hok
    · cases hok
      exact h
    · cases hok
      exact h
    · cases hok
      exact builderInv_of_extends (extends_fields st _ rfl rfl [] (by simp) rfl) h
    · cases hok
      exact builderInv_of_extends (extends_fields st _ rfl rfl [] (by simp) rfl) h
    · cases hok

theorem builderInv_buildLoopStep {ext : Externals} {st st' : BuilderState}
    {element : MarkdownElement} (h : BuilderInv st)
    (hok : buildLoopStep ext st element = .ok st') : BuilderInv st' := by
  unfold buildLoopStep at hok
  split at hok
  · cases hok
  · rename_i stMid hmid
    split at hok
    · cases hok
    · rename_i stMid2 hmid2
      cases hok
      have h1 : BuilderInv stMid :=
        builderInv_processElement (builderInv_of_extends (extends_setIgnore _ _) h) hmid
      have h2 : BuilderInv stMid2 := builderInv_validateLastOperation h1 hmid2
      split
      · exact h2
      · exact builderInv_of_extends (extends_pushLineBreak _) h2

theorem setTheme_fields {ext : Externals} {st st' : BuilderState}
    {metadata : PresentationThemeMetadata} (h : setTheme ext st metadata = .ok st') :
    st'.slides = st.slides ∧ st'.slideOperations = st.slideOperations ∧
      st'.events = st.events := by
  unfold setTheme at h
  split at h
  · cases h
    exact ⟨rfl, rfl, rfl⟩
  · cases h

theorem setCodeTheme_fields {ext : Externals} {st st' : BuilderState}
    (h : setCodeTheme ext st = .ok st') :
    st'.slides = st.slides ∧ st'.slideOperations = st.slideOperations ∧
      st'.events = st.events := by
  unfold setCodeTheme at h
  split at h
  · split at h
    · cases h
      exact ⟨rfl, rfl, rfl⟩
    · cases h
  · cases h
    exact ⟨rfl, rfl, rfl⟩

theorem builderInv_pushSlidePrelude_empty {st : BuilderState}
    (hops : st.slideOperations = []) (hslides : goodSlides st.slides)
    (hev : st.events = List.replicate st.slides.length BuildEvent.slidePushed) :
    BuilderInv (pushSlidePrelude st) := by
  refine ⟨hslides, ?_, hev⟩
  unfold pushSlidePrelude pushLineBreak
  simp only [hops, List.nil_append, List.append_assoc]
  exact goodOps_fresh _ _

theorem processFrontMatter_weak {ext : Externals} {hl : Highlighter} {theme : Theme}
    {contents : String} {st' : BuilderState}
    (h : processFrontMatter ext (PresentationBuilder.new hl theme) contents = .ok st') :
    goodSlides st'.slides ∧
      st'.events = List.replicate st'.slides.length BuildEvent.slidePushed ∧
      (st'.slideOperations = [] ∨ goodOps st'.slideOperations) := by
  unfold processFrontMatter at h
  split at h
  · cases h
  · rename_i metadata hmeta
    split at h
    · rename_i hcond
      dsimp only at h
      split at h
      · cases h
      · rename_i st2 hsettheme
        cases h
        have hfields := setTheme_fields hsettheme
        have hslides2 : st2.slides = [] := by rw [hfields.1]; rfl
        have hops2 : st2.slideOperations = [] := by rw [hfields.2.1]; rfl
        have hev2 : st2.events = [] := by rw [hfields.2.2]; rfl
        have hinv : BuilderInv (pushSlidePrelude st2) :=
          builderInv_pushSlidePrelude_empty hops2
            (by rw [hslides2]; intro s hs; cases hs)
            (by rw [hev2, hslides2]; rfl)
        have hfinal := builderInv_pushIntroSlide metadata hinv
        exact ⟨hfinal.1, hfinal.2.2, Or.inr hfinal.2.1⟩
    · rename_i hcond
      dsimp only at h
      split at h
      · cases h
      · rename_i st2 hsettheme
        cases h
        have hfields := setTheme_fields hsettheme
        have hslides2 : st'.slides = [] := by rw [hfields.1]; rfl
        have hops2 : st'.slideOperations = [] := by rw [hfields.2.1]; rfl
        have hev2 : st'.events = [] := by rw [hfields.2.2]; rfl
        refine ⟨(by rw [hslides2]; intro s hs; cases hs), ?_, Or.inl hops2⟩
        rw [hev2, hslides2]
        rfl

theorem builderInv_buildLoop {ext : Externals} :
    ∀ {elements : List MarkdownElement} {st st' : BuilderState}, BuilderInv st →
      buildLoop ext elements st = .ok st' → BuilderInv st'
  | [], st, st', h, hok => by
      cases hok
      exact h
  | element :: rest, st, st', h, hok => by
      unfold buildLoop at hok
      split at hok
      · cases hok
      · rename_i stMid hmid
        exact builderInv_buildLoop (builderInv_buildLoopStep h hmid) hok

theorem build_inv {ext : Externals} {hl : Highlighter} {theme : Theme}
    {elements : List MarkdownElement} {out : BuildOutput}
    (h : build ext hl theme elements = .ok out) :
    goodSlides out.presentation.slides ∧
      out.events =
        List.replicate out.presentation.slides.length BuildEvent.slidePushed ++
          [BuildEvent.totalSlidesWritten] ∧
      out.footerContext.totalSlides = out.presentation.slides.length := by
  unfold build at h
  dsimp only at h
  split at h
  · cases h
  · rename_i stFM hFM
    have hweak : goodSlides stFM.slides ∧
        stFM.events = List.replicate stFM.slides.length BuildEvent.slidePushed ∧
        (stFM.slideOperations = [] ∨ goodOps stFM.slideOperations) := by
      split at hFM
      · exact processFrontMatter_weak hFM
      · cases hFM
        exact ⟨(by intro s hs; cases hs), rfl, Or.inl rfl⟩
    split at h
    · cases h
    · rename_i stCT hCT
      have hfields := setCodeTheme_fields hCT
      have hweak2 : goodSlides stCT.slides ∧
          stCT.events = List.replicate stCT.slides.length BuildEvent.slidePushed ∧
          (stCT.slideOperations = [] ∨ goodOps stCT.slideOperations) := by
        rw [hfields.1, hfields.2.1, hfields.2.2]
        exact hweak
      have hInvStart :
          BuilderInv
            (if stCT.slideOperations.isEmpty then pushSlidePrelude stCT else stCT) := by
        split
        · rename_i hempty
          exact builderInv_pushSlidePrelude_empty (List.isEmpty_iff.mp hempty) hweak2.1
            hweak2.2.1
        · rename_i hempty
          rcases hweak2.2.2 with hnil | hgood
          · exact absurd (by rw [hnil]; rfl) hempty
          · exact ⟨hweak2.1, hgood, hweak2.2.1⟩
      split at h
      · cases h
      · rename_i stL hLoop
        have hInvL : BuilderInv stL := builderInv_buildLoop hInvStart hLoop
        have hInvF :
            BuilderInv
              (if stL.slideOperations.isEmpty then stL
                else terminateSlide stL TerminateMode.resetState) := by
          split
          · exact hInvL
          · exact builderInv_terminateSlide _ hInvL
        cases h
        refine ⟨hInvF.1, ?_, rfl⟩
        rw [hInvF.2.2]
        rfl

/-! ## Claim theorems -/

/-- C1 (counterexample): in the `Failure` state, `Redraw` produces no
side effect and `JumpNextSlide` leaves the retained presentation's cursor
untouched, while the same command in `Presenting` moves the cursor and
requests a redraw — contradicting the claim that `Redraw` takes effect and
navigation still applies while `Failure`. -/
theorem c1_counterexample :
    applyUserCommand (.failure "e" pres2) .redraw = (.none, .failure "e" pres2) ∧
      applyUserCommand (.failure "e" pres2) .jumpNextSlide = (.none, .failure "e" pres2) ∧
      applyUserCommand (.presenting pres2) .jumpNextSlide =
        (.redraw, .presenting ⟨[⟨[]⟩, ⟨[]⟩], 1⟩) := by
  decide

/-- C1 (amended): while the presenter is in the `Failure` state, only
`Exit` takes effect; `Redraw` and every navigation command are no-ops
that leave the state (including the retained presentation) unchanged and
request no redraw. -/
theorem c1_failure_only_exit (error : String) (p : Presentation) (command : UserCommand) :
    applyUserCommand (.failure error p) command =
      (if command = .exit then CommandSideEffect.exit else CommandSideEffect.none,
        .failure error p) := by
  cases command <;> rfl

/-- C10: `JumpSlide(n)` targets the 0-based index `n - 1` with saturating
subtraction, so `JumpSlide 0` and `JumpSlide 1` coincide and target the
first slide; the other navigation commands use their natural indices with
no off-by-one conversion. -/
theorem c10_jump_slide_off_by_one (p : Presentation) (n : Nat) :
    applyUserCommand (.presenting p) (.jumpSlide n) =
        (if (p.jumpSlide (n - 1)).1 then .redraw else .none,
          .presenting (p.jumpSlide (n - 1)).2) ∧
      applyUserCommand (.presenting p) (.jumpSlide 0) =
        applyUserCommand (.presenting p) (.jumpSlide 1) ∧
      (p.jumpSlide (1 - 1)).2.currentSlideIndex = 0 ∧
      applyUserCommand (.presenting p) .jumpFirstSlide =
        (if (p.jumpSlide 0).1 then .redraw else .none, .presenting (p.jumpSlide 0).2) ∧
      applyUserCommand (.presenting p) .jumpLastSlide =
        (if (p.jumpSlide (p.slides.length - 1)).1 then .redraw else .none,
          .presenting (p.jumpSlide (p.slides.length - 1)).2) ∧
      applyUserCommand (.presenting p) .jumpNextSlide =
        (if (p.jumpSlide (p.currentSlideIndex + 1)).1 then .redraw else .none,
          .presenting (p.jumpSlide (p.currentSlideIndex + 1)).2) ∧
      applyUserCommand (.presenting p) .jumpPreviousSlide =
        (if (p.jumpSlide (p.currentSlideIndex - 1)).1 then .redraw else .none,
          .presenting (p.jumpSlide (p.currentSlideIndex - 1)).2) := by
  refine ⟨rfl, rfl, ?_, rfl, rfl, rfl, rfl⟩
  simp [Presentation.jumpSlide]

/-- C4: `ReloadPresentation` is ignored entirely in the locked live mode;
in the editable mode a successful recompilation yields
`Presenting(new)` with the cursor at the first differing slide index
(clamped), falling back to the previously displayed index, while a failed
recompilation yields `Failure` carrying the error and the previously
displayed presentation unchanged. -/
theorem c4_try_reload (mode : PresentMode) (state : PresenterState)
    (loadResult : Except String Presentation)
    (firstModifiedSlide : Presentation → Presentation → Option Nat) :
    (mode = .presentation →
      tryReload mode state loadResult firstModifiedSlide = state) ∧
    (mode = .development → state ≠ .empty →
      (∀ p, loadResult = .ok p →
        tryReload mode state loadResult firstModifiedSlide =
          .presenting
            ⟨p.slides,
              min
                ((firstModifiedSlide state.presentationD p).getD
                  state.presentationD.currentSlideIndex)
                (p.slides.length - 1)⟩) ∧
      (∀ e, loadResult = .error e →
        tryReload mode state loadResult firstModifiedSlide =
          .failure e state.presentationD)) := by
  constructor
  · intro hm
    subst hm
    rfl
  · intro hm _
    subst hm
    constructor
    · intro p hp
      subst hp
      rfl
    · intro e he
      subst he
      rfl

/-- C4 (witness): a concrete reload in editable mode, on both the success
and the failure paths. -/
theorem c4_witness :
    (PresenterState.presenting pres2 ≠ .empty) ∧
      tryReload .development (.presenting pres2) (.ok ⟨[⟨[]⟩], 0⟩)
          (fun _ _ => Option.none) =
        .presenting ⟨[⟨[]⟩], 0⟩ ∧
      tryReload .development (.presenting pres2) (.error "broken")
          (fun _ _ => Option.none) =
        .failure "broken" pres2 := by
  refine ⟨by decide, ?_, ?_⟩
  · have h :=
      ((c4_try_reload .development (.presenting pres2) (.ok ⟨[⟨[]⟩], 0⟩)
            (fun _ _ => Option.none)).2 rfl (by decide)).1
        ⟨[⟨[]⟩], 0⟩ rfl
    simpa using h
  · have h :=
      ((c4_try_reload .development (.presenting pres2) (.error "broken")
            (fun _ _ => Option.none)).2 rfl (by decide)).2
        "broken" rfl
    simpa using h

/-- C2: processing a `pause` pops the trailing instruction exactly when it
is a line break following a list element, then closes the popped buffer
(with the footer block appended) into a new slide, and restores the
pre-footer buffer contents as the next slide's starting instruction
sequence; no other state (layout, column, pending flags) changes. -/
theorem c2_pause_replays_buffer (st : BuilderState) :
    processPause st =
      { st with
        slideOperations :=
          if st.lastElementIsList ∧
              st.slideOperations.getLast? = some RenderOperation.renderLineBreak then
            st.slideOperations.dropLast
          else st.slideOperations
        slides :=
          st.slides ++
            [⟨(if st.lastElementIsList ∧
                    st.slideOperations.getLast? = some RenderOperation.renderLineBreak then
                  st.slideOperations.dropLast
                else st.slideOperations) ++
                [RenderOperation.exitLayout, RenderOperation.popMargin,
                  RenderOperation.jumpToBottom,
                  RenderOperation.renderDynamic ⟨st.theme.footer, st.slides.length⟩]⟩]
        events := st.events ++ [BuildEvent.slidePushed] } :=
  processPause_spec st

/-- C9: the layout directive transition table: `column_layout` fails with
`InvalidLayout` exactly when the widths are empty or contain a zero and
otherwise enters `InLayout` arming the pending-enter-column flag;
`column: i` fails with `NoLayout` in the default state, `AlreadyInColumn`
on the current column, `ColumnIndexTooLarge` when `i` is out of range, and
otherwise enters `InColumn` emitting `EnterColumn`. -/
theorem c9_layout_directives (st : BuilderState) (widths : List Nat) (i : Nat) :
    (widths = [] →
      processCommand st (.initColumnLayout widths) =
        .error (.invalidLayout "need at least one column")) ∧
    (widths ≠ [] → 0 ∈ widths →
      processCommand st (.initColumnLayout widths) =
        .error (.invalidLayout "cant have zero sized columns")) ∧
    (widths ≠ [] → 0 ∉ widths →
      processCommand st (.initColumnLayout widths) =
        .ok
          { st with
            layout := .inLayout widths.length
            slideOperations := st.slideOperations ++ [.initColumnLayout widths]
            needsEnterColumn := true }) ∧
    (st.layout = .default → processCommand st (.column i) = .error .noLayout) ∧
    (∀ n, st.layout = .inColumn i n → processCommand st (.column i) = .error .alreadyInColumn) ∧
    (∀ n, st.layout = .inLayout n → n ≤ i →
      processCommand st (.column i) = .error .columnIndexTooLarge) ∧
    (∀ j n, st.layout = .inColumn j n → j ≠ i → n ≤ i →
      processCommand st (.column i) = .error .columnIndexTooLarge) ∧
    (∀ n, st.layout = .inLayout n → i < n →
      processCommand st (.column i) =
        .ok
          { st with
            layout := .inColumn i n
            slideOperations := st.slideOperations ++ [.enterColumn i] }) ∧
    (∀ j n, st.layout = .inColumn j n → j ≠ i → i < n →
      processCommand st (.column i) =
        .ok
          { st with
            layout := .inColumn i n
            slideOperations := st.slideOperations ++ [.enterColumn i] }) := by
  refine ⟨?_, ?_, ?_, ?_, ?_, ?_, ?_, ?_, ?_⟩
  · intro hw
    subst hw
    rfl
  · intro hne hzero
    have hisEmpty : widths.isEmpty = false := by
      cases widths
      · exact absurd rfl hne
      · rfl
    have hany : widths.any (· == 0) = true := by
      rw [List.any_eq_true]
      exact ⟨0, hzero, by simp⟩
    simp [processCommand, validateColumnLayout, hisEmpty, hany]
  · intro hne hzero
    have hisEmpty : widths.isEmpty = false := by
      cases widths
      · exact absurd rfl hne
      · rfl
    have hany : widths.any (· == 0) = false := by
      rw [Bool.eq_false_iff]
      intro hcontra
      rw [List.any_eq_true] at hcontra
      obtain ⟨x, hx, hx0⟩ := hcontra
      rw [beq_iff_eq] at hx0
      subst hx0
      exact hzero hx
    simp [processCommand, validateColumnLayout, hisEmpty, hany]
  · intro hl
    simp [processCommand, hl]
  · intro n hl
    simp [processCommand, hl]
  · intro n hl hle
    simp [processCommand, hl, Nat.not_lt.mpr hle, hle]
  · intro j n hl hne hle
    have : ¬(some j = some i) := by
      intro hc
      exact hne (Option.some.inj hc)
    simp [processCommand, hl, this, hle]
  · intro n hl hlt
    simp [processCommand, hl, Nat.not_le.mpr hlt]
  · intro j n hl hne hlt
    have : ¬(some j = some i) := by
      intro hc
      exact hne (Option.some.inj hc)
    simp [processCommand, hl, this, Nat.not_le.mpr hlt]

/-- C9 (witness): concrete directive transitions at each interesting
state. -/
theorem c9_witness :
    processCommand st0 (.initColumnLayout []) =
        .error (.invalidLayout "need at least one column") ∧
      processCommand st0 (.initColumnLayout [1, 0]) =
        .error (.invalidLayout "cant have zero sized columns") ∧
      processCommand st0 (.initColumnLayout [2, 3]) =
        .ok
          { st0 with
            layout := .inLayout 2
            slideOperations := st0.slideOperations ++ [.initColumnLayout [2, 3]]
            needsEnterColumn := true } ∧
      processCommand st0 (.column 0) = .error .noLayout ∧
      processCommand stInColumn (.column 0) = .error .alreadyInColumn ∧
      processCommand stInLayout (.column 2) = .error .columnIndexTooLarge ∧
      processCommand stInColumn (.column 2) = .error .columnIndexTooLarge ∧
      processCommand stInLayout (.column 1) =
        .ok
          { stInLayout with
            layout := .inColumn 1 2
            slideOperations := stInLayout.slideOperations ++ [.enterColumn 1] } ∧
      processCommand stInColumn (.column 1) =
        .ok
          { stInColumn with
            layout := .inColumn 1 2
            slideOperations := stInColumn.slideOperations ++ [.enterColumn 1] } := by
  refine ⟨(c9_layout_directives st0 [] 0).1 rfl,
    (c9_layout_directives st0 [1, 0] 0).2.1 (by decide) (by decide),
    (c9_layout_directives st0 [2, 3] 0).2.2.1 (by decide) (by decide),
    (c9_layout_directives st0 [] 0).2.2.2.1 rfl,
    (c9_layout_directives stInColumn [] 0).2.2.2.2.1 2 rfl,
    (c9_layout_directives stInLayout [] 2).2.2.2.2.2.1 2 rfl (by decide),
    (c9_layout_directives stInColumn [] 2).2.2.2.2.2.2.1 0 2 rfl (by decide) (by decide),
    (c9_layout_directives stInLayout [] 1).2.2.2.2.2.2.2.1 2 rfl (by decide),
    (c9_layout_directives stInColumn [] 1).2.2.2.2.2.2.2.2 0 2 rfl (by decide) (by decide)⟩

/-- C5 (counterexample): `column_layout: [1]` followed by `reset_layout`
fails the whole build with `NotInsideColumn` even though the very next
emitted instruction after arming the flag is `ExitLayout` (the
`reset_layout` directive appends `ExitLayout` first, then a line break,
and the validation only inspects the final instruction). -/
theorem c5_counterexample :
    build ext0 hl0 theme0 [.comment "column_layout: [1]", .comment "reset_layout"] =
        .error .notInsideColumn ∧
      (processCommand { st0 with needsEnterColumn := true } .resetLayout).map
          (fun st => st.slideOperations) =
        .ok [RenderOperation.exitLayout, RenderOperation.renderLineBreak] := by
  decide

/-- C5 (amended): whenever the pending-enter-column flag is armed, the
check that runs after each element inspects the buffer's last
instruction: it passes while that is still the `InitColumnLayout` itself,
passes and clears the flag on `EnterColumn` or `ExitLayout`, and fails
with `NotInsideColumn` (clearing the flag) on anything else; with the
flag down it always passes. -/
theorem c5_validate_pending_column (st : BuilderState) :
    (st.needsEnterColumn = false → validateLastOperation st = .ok st) ∧
    (st.needsEnterColumn = true →
      (st.slideOperations.getLast? = Option.none → validateLastOperation st = .ok st) ∧
      (∀ columns, st.slideOperations.getLast? = some (.initColumnLayout columns) →
        validateLastOperation st = .ok st) ∧
      (∀ column, st.slideOperations.getLast? = some (.enterColumn column) →
        validateLastOperation st = .ok { st with needsEnterColumn := false }) ∧
      (st.slideOperations.getLast? = some .exitLayout →
        validateLastOperation st = .ok { st with needsEnterColumn := false }) ∧
      (∀ op, st.slideOperations.getLast? = some op →
        (∀ columns, op ≠ .initColumnLayout columns) →
        (∀ column, op ≠ .enterColumn column) → op ≠ .exitLayout →
        validateLastOperation st = .error .notInsideColumn)) := by
  constructor
  · intro hflag
    simp [validateLastOperation, hflag]
  · intro hflag
    refine ⟨?_, ?_, ?_, ?_, ?_⟩
    · intro hlast
      simp [validateLastOperation, hflag, hlast]
    · intro columns hlast
      simp [validateLastOperation, hflag, hlast]
    · intro column hlast
      simp [validateLastOperation, hflag, hlast]
    · intro hlast
      simp [validateLastOperation, hflag, hlast]
    · intro op hlast hnotinit hnotenter hnotexit
      cases op <;>
        first
        | exact absurd rfl (hnotinit _)
        | exact absurd rfl (hnotenter _)
        | exact absurd rfl hnotexit
        | simp [validateLastOperation, hflag, hlast]

/-- C5 (witness): concrete checks with the flag armed. -/
theorem c5_witness :
    validateLastOperation
        { st0 with
          needsEnterColumn := true
          slideOperations := [.initColumnLayout [1], .enterColumn 0] } =
      .ok
        { st0 with
          needsEnterColumn := false
          slideOperations := [.initColumnLayout [1], .enterColumn 0] } ∧
      validateLastOperation
          { st0 with
            needsEnterColumn := true
            slideOperations := [.initColumnLayout [1], .renderLineBreak] } =
        .error .notInsideColumn := by
  refine ⟨?_, ?_⟩
  · have h :=
      ((c5_validate_pending_column
            { st0 with
              needsEnterColumn := true
              slideOperations := [.initColumnLayout [1], .enterColumn 0] }).2
          rfl).2.2.1 0 (by decide)
    simpa using h
  · exact ((c5_validate_pending_column
        { st0 with
          needsEnterColumn := true
          slideOperations := [.initColumnLayout [1], .renderLineBreak] }).2
      rfl).2.2.2.2 .renderLineBreak (by decide) (fun _ h => by cases h)
      (fun _ h => by cases h) (by decide)

/-- C3 (counterexample): a slide containing a block quote carries three
color-set instructions (the prelude's plus the quote's bracketing pair),
refuting "exactly one SetColors instruction per slide". -/
theorem c3_counterexample :
    (build ext0 hl0 theme0 [.blockQuote ["x"]]).map
        (fun out => setColorsCount (out.presentation.slides.headD default).renderOperations) =
      .ok 3 ∧ (3 : Nat) ≠ 1 := by
  decide

/-- C3 (amended): for every element stream whose compilation succeeds,
every slide of the resulting presentation (including the synthesized
intro slide and pause-generated slides) contains exactly one ClearScreen
instruction and begins with the prelude of one color-set, one
clear-screen and one margin-apply instruction; the color-set count is not
one in general, since each block quote contributes two more. -/
theorem c3_slide_prelude_invariant (ext : Externals) (hl : Highlighter) (theme : Theme)
    (elements : List MarkdownElement) (out : BuildOutput)
    (h : build ext hl theme elements = .ok out) :
    ∀ s ∈ out.presentation.slides,
      startsWithPrelude s.renderOperations ∧ clearCount s.renderOperations = 1 := by
  intro s hs
  exact (build_inv h).1 s hs

/-- C3 (witness): the slide of a concrete one-element build satisfies the
prelude invariant. -/
theorem c3_witness :
    build ext0 hl0 theme0 [.thematicBreak] = .ok buildOutput0 ∧
      startsWithPrelude
          (buildOutput0.presentation.slides.headD default).renderOperations ∧
        clearCount (buildOutput0.presentation.slides.headD default).renderOperations = 1 :=
  ⟨by decide,
    c3_slide_prelude_invariant ext0 hl0 theme0 [.thematicBreak] buildOutput0 (by decide)
      (buildOutput0.presentation.slides.headD default) (by decide)⟩

/-- C6 (counterexample): a depth-0 unordered item's marker is `"   •"`,
whose byte length is 6 but whose display width is 4; the body's fixed
left margin is 6, the byte length, not the display width the claim
states. -/
theorem c6_counterexample :
    (pushListItem st0 ⟨0, ⟨[⟨"hi", {}⟩]⟩, .unordered⟩).slideOperations =
        [RenderOperation.renderTextLine [⟨"   •", {}⟩] (theme0.alignment .list),
          RenderOperation.renderTextLine [⟨"hi", {}⟩] (.left (.fixed 6)),
          RenderOperation.renderLineBreak] ∧
      rustStrLen (listItemPrefixText ⟨0, ⟨[⟨"hi", {}⟩]⟩, .unordered⟩) = 6 ∧
      strWidth uniWidth (listItemPrefixText ⟨0, ⟨[⟨"hi", {}⟩]⟩, .unordered⟩) = 4 ∧
      (6 : Nat) ≠ 4 := by
  decide

/-- C6 (amended): a list item emits its marker (`3*(depth+1)` spaces plus
the depth-dependent bullet `•`/`◦`/`▪` or the ordered marker using the
item's own number) and then the body left-aligned with a fixed margin
equal to the marker's UTF-8 byte length (`prefix.len()`), which for
unordered items is `3*(depth+1) + 3`, exceeding the marker's display
width. -/
theorem c6_list_item_marker (st : BuilderState) (item : ListItem) :
    pushListItem st item =
        pushLineBreak
          (pushAlignedText (pushText st ⟨[⟨listItemPrefixText item, {}⟩]⟩ .list)
            item.contents (.left (.fixed (rustStrLen (listItemPrefixText item))))) ∧
      (∀ d c, listItemPrefixText ⟨d, c, .unordered⟩ =
        (String.mk (List.replicate ((d + 1) * 3) ' ')).push
          (if d = 0 then '•' else if d = 1 then '◦' else '▪')) ∧
      (∀ d c n, listItemPrefixText ⟨d, c, .orderedParens n⟩ =
        String.mk (List.replicate ((d + 1) * 3) ' ') ++ toString n ++ ") ") ∧
      (∀ d c n, listItemPrefixText ⟨d, c, .orderedPeriod n⟩ =
        String.mk (List.replicate ((d + 1) * 3) ' ') ++ toString n ++ ". ") ∧
      (∀ d c, rustStrLen (listItemPrefixText ⟨d, c, .unordered⟩) = 3 * (d + 1) + 3) := by
  refine ⟨rfl, fun d c => rfl, fun d c n => rfl, fun d c n => rfl, ?_⟩
  intro d c
  have hch : charUtf8Size (if d = 0 then '•' else if d = 1 then '◦' else '▪') = 3 := by
    split
    · decide
    · split <;> decide
  have hdata :
      (listItemPrefixText ⟨d, c, .unordered⟩).data =
        List.replicate ((d + 1) * 3) ' ' ++
          [if d = 0 then '•' else if d = 1 then '◦' else '▪'] := rfl
  have hsp : charUtf8Size ' ' = 1 := by decide
  rw [rustStrLen, hdata]
  simp [hch, hsp, List.map_replicate, List.sum_replicate, smul_eq_mul]
  omega

/-- Folding preformatted-line pushes equals appending the joined per-line
instruction pairs. -/
theorem foldl_pre_lb {α : Type _} (f : α → RenderOperation) (l : List α) :
    ∀ st : BuilderState,
      l.foldl
          (fun st a =>
            pushLineBreak { st with slideOperations := st.slideOperations ++ [f a] })
          st =
        { st with
          slideOperations :=
            st.slideOperations ++
              (l.map fun a => [f a, RenderOperation.renderLineBreak]).flatten } := by
  induction l with
  | nil =>
      intro st
      simp
  | cons a l ih =>
      intro st
      rw [List.foldl_cons, ih]
      simp [pushLineBreak]

/-- C7 (counterexample): with one column of horizontal padding, a
single-line code block `"ab"` reports block width 4 (the padded line's
width 3 plus the padding 1), while the claim's "maximum display width
over the unpadded highlighted lines plus the horizontal padding amount"
is 3. -/
theorem c7_counterexample :
    (pushCode ext0 st1 ⟨"ab", "c"⟩).slideOperations =
        [RenderOperation.renderPreformattedLine ⟨" ab", 3, 4, theme1.alignment .code⟩,
          RenderOperation.renderLineBreak] ∧
      claimUnpaddedBlockLength uniWidth hl0 ⟨"ab", "c"⟩ 1 = 3 ∧ (4 : Nat) ≠ 3 := by
  decide

/-- C7 (amended): every code block emits one preformatted line per
highlighted line of the padded code text, each reporting a block width
equal to the maximum display width over the lines of the padded text
(as handed to the highlighter) plus the horizontal padding amount, a text
trimmed of trailing whitespace, and an unformatted width equal to the
original (pre-trim) line's display width minus the width trimmed from the
formatted line. -/
theorem c7_push_code (ext : Externals) (st : BuilderState) (c : Code) :
    (pushCode ext st c).slideOperations =
      st.slideOperations ++
        ((st.highlighter
              (padCode (st.theme.code.paddingHorizontal.getD 0)
                (st.theme.code.paddingVertical.getD 0) c.contents)
              c.language).map fun cl =>
            [RenderOperation.renderPreformattedLine
                ⟨rustTrimEnd cl.formatted,
                  strWidth ext.charWidth cl.original -
                    (strWidth ext.charWidth cl.formatted -
                      strWidth ext.charWidth (rustTrimEnd cl.formatted)),
                  ((rustLines
                          (padCode (st.theme.code.paddingHorizontal.getD 0)
                            (st.theme.code.paddingVertical.getD 0) c.contents)).map
                        (strWidth ext.charWidth)).foldl max 0 +
                    st.theme.code.paddingHorizontal.getD 0,
                  st.theme.alignment .code⟩,
              RenderOperation.renderLineBreak]).flatten := by
  unfold pushCode
  dsimp only
  have h :=
    foldl_pre_lb
      (fun cl : CodeLine =>
        RenderOperation.renderPreformattedLine
          ⟨rustTrimEnd cl.formatted,
            strWidth ext.charWidth cl.original -
              (strWidth ext.charWidth cl.formatted -
                strWidth ext.charWidth (rustTrimEnd cl.formatted)),
            ((rustLines
                    (padCode (st.theme.code.paddingHorizontal.getD 0)
                      (st.theme.code.paddingVertical.getD 0) c.contents)).map
                  (strWidth ext.charWidth)).foldl max 0 +
              st.theme.code.paddingHorizontal.getD 0,
            st.theme.alignment .code⟩)
      (st.highlighter
        (padCode (st.theme.code.paddingHorizontal.getD 0)
          (st.theme.code.paddingVertical.getD 0) c.contents)
        c.language)
      st
  rw [h]

/-- C8: during every successful build, the shared footer context's
total-slides field is written exactly once, after every slide push (the
event trace is all the slide pushes followed by the single write), its
final value is the total slide count, and a footer instruction resolves
its content only at draw time from the context it is handed (shown for
the progress-bar style, whose output is a function of the supplied
context's total-slides value). -/
theorem c8_footer_context_write_once (ext : Externals) (hl : Highlighter) (theme : Theme)
    (elements : List MarkdownElement) (out : BuildOutput)
    (h : build ext hl theme elements = .ok out) :
    out.footerContext.totalSlides = out.presentation.slides.length ∧
      out.events =
        List.replicate out.presentation.slides.length BuildEvent.slidePushed ++
          [BuildEvent.totalSlidesWritten] ∧
      (∀ (w : Char → Nat) (character : Option Char) (colors : Colors) (k : Nat)
          (dims : WindowSize),
        FooterGenerator.asRenderOperations w ⟨.progressBar character colors, k⟩
            out.footerContext dims =
          [.renderTextLine
              [⟨progressBarText w character k out.footerContext.totalSlides dims,
                { colors := colors }⟩]
              (.left (.fixed 0))]) := by
  refine ⟨(build_inv h).2.2, (build_inv h).2.1, ?_⟩
  intro w character colors k dims
  rfl

/-- C8 (witness): a concrete two-slide build (one soft `pause` boundary)
whose context records two slides, written once after both pushes. -/
theorem c8_witness :
    build ext0 hl0 theme0 [.comment "pause", .thematicBreak] = .ok buildOutput1 ∧
      buildOutput1.footerContext.totalSlides = buildOutput1.presentation.slides.length ∧
      buildOutput1.events =
        List.replicate buildOutput1.presentation.slides.length BuildEvent.slidePushed ++
          [BuildEvent.totalSlidesWritten] :=
  ⟨by decide,
    (c8_footer_context_write_once ext0 hl0 theme0 [.comment "pause", .thematicBreak]
        buildOutput1 (by decide)).1,
    (c8_footer_context_write_once ext0 hl0 theme0 [.comment "pause", .thematicBreak]
        buildOutput1 (by decide)).2.1⟩

end Presenterm
